import Mathlib

/-!
Shallow embedding of the diagnnose repository slice:
`diagnnose/downstream/tasks/linzen.py` (agreement-corpus builder) and
`diagnnose/activations/init_states.py` (initial-state provider).

Python strings are modelled by Lean `String` (a wrapper around `List Char`,
with `Char.toNat` playing the role of `ord`).  Python `dict`s are modelled
by association lists in insertion order whose keys stay unique (`PyDict`
below): assignment to an existing key overwrites in place, assignment to a
fresh key appends.  Python exceptions are modelled by the `PyError`
enumeration together with `Except`: a raising call returns `.error e`.
String primitives (`str.split`, `str.strip`, `int(...)`, `str(...)`,
slicing) are spelled out structurally below so every definition evaluates
inside the kernel.
-/

/-- Exception classes that the embedded code can raise.  `corpusFormatError`
and `shapeMismatchError` are modelled from the spec: no such classes occur
anywhere in the source; they are included only so that statements about them
can be written down and compared with what the code actually raises. -/
inductive PyError where
  | typeError
  | valueError
  | assertionError
  | stopIteration
  | keyError
  | fileNotFoundError
  | corpusFormatError
  | shapeMismatchError
  deriving DecidableEq

/-- Python `dict` as an insertion-ordered association list with unique keys;
`List.length` is `len(...)`. -/
abbrev PyDict (α β : Type) := List (α × β)

/-- Lookup, `d[k]` / `d.get(k)`: the value stored at the first (unique)
occurrence of the key. -/
def dget {α β : Type} [DecidableEq α] : PyDict α β → α → Option β
  | [], _ => none
  | (k', v) :: rest, k => if k' = k then some v else dget rest k

/-- Assignment `d[k] = v`: overwrite in place when the key is present,
append otherwise (Python dicts preserve insertion order on overwrite). -/
def dset {α β : Type} [DecidableEq α] : PyDict α β → α → β → PyDict α β
  | [], k, v => [(k, v)]
  | (k', v') :: rest, k, v =>
    if k' = k then (k, v) :: rest else (k', v') :: dset rest k v

/-- Lookup in a two-level dict, `d[k1][k2]` guarded by presence. -/
def dget2 {α β γ : Type} [DecidableEq α] [DecidableEq β]
    (d : PyDict α (PyDict β γ)) (k1 : α) (k2 : β) : Option γ :=
  match dget d k1 with
  | some inner => dget inner k2
  | none => none

/-- Whitespace for `str.split()` / `str.strip()` (the ASCII whitespace
characters Python treats as separators; the corpus contains no exotic
Unicode whitespace). -/
def isPyWs (c : Char) : Bool :=
  decide (c = ' ') || decide (c = '\t') || decide (c = '\n') ||
  decide (c = '\r') || decide (c = '\x0b') || decide (c = '\x0c')

/-- Accumulator pass behind `str.split()` (split on whitespace runs,
dropping empty words). -/
def splitWsAux : List Char → List Char → List String
  | [], acc => if acc.isEmpty then [] else [⟨acc.reverse⟩]
  | c :: cs, acc =>
    if isPyWs c then
      (if acc.isEmpty then splitWsAux cs [] else ⟨acc.reverse⟩ :: splitWsAux cs [])
    else splitWsAux cs (c :: acc)

/-- Python `s.split()` (no separator argument). -/
def pySplitWs (s : String) : List String := splitWsAux s.data []

/-- Accumulator pass behind `s.split(sep)` for a one-character separator
(empty fields are kept, `"".split(sep) == [""]`). -/
def splitSepAux (sep : Char) : List Char → List Char → List String
  | [], acc => [⟨acc.reverse⟩]
  | c :: cs, acc =>
    if c = sep then ⟨acc.reverse⟩ :: splitSepAux sep cs []
    else splitSepAux sep cs (c :: acc)

/-- Python `s.split("\t")`. -/
def pySplitTab (s : String) : List String := splitSepAux '\t' s.data []

/-- Python `s.strip()`: drop leading and trailing whitespace. -/
def pyStrip (s : String) : String :=
  ⟨((s.data.dropWhile isPyWs).reverse.dropWhile isPyWs).reverse⟩

/-- Python `"".join(l)`: concatenation of a list of strings. -/
def pyJoin (l : List String) : String := ⟨(l.map String.data).flatten⟩

/-- Value of a nonempty list of decimal digit characters. -/
def digitsVal : List Char → Option Nat
  | [] => none
  | cs => go cs 0
where
  go : List Char → Nat → Option Nat
    | [], acc => some acc
    | c :: cs, acc =>
      if c.isDigit then go cs (acc * 10 + (c.toNat - 48)) else none

/-- Python `int(s)` on a decimal string: surrounding whitespace is allowed,
then an optional sign and at least one digit; anything else raises
`ValueError` (modelled as `none`).  Underscore digit separators, which the
corpus fields never contain, are not modelled. -/
def pyInt (s : String) : Option Int :=
  match (pyStrip s).data with
  | '-' :: ds => (digitsVal ds).map (fun n => -(n : Int))
  | '+' :: ds => (digitsVal ds).map (fun n => (n : Int))
  | ds => (digitsVal ds).map (fun n => (n : Int))

/-- Decimal digit characters of a natural number (fuel-driven so the kernel
reduces it; the fuel argument always suffices since `n < 10 ^ n + 1`). -/
def natDigits : Nat → Nat → List Char
  | 0, _ => []
  | fuel + 1, n =>
    if n < 10 then [Char.ofNat (48 + n)]
    else natDigits fuel (n / 10) ++ [Char.ofNat (48 + n % 10)]

/-- Python `str(n)` for the natural numbers produced by `len(...)`. -/
def pyStr (n : Nat) : String := ⟨natDigits (n + 1) n⟩

/-- Python `len(s)` for strings: the number of characters. -/
def pyLen (s : String) : Nat := s.data.length

/-- Normalisation of one slice bound: negative indices count from the end
and clamp at 0; `List.take` / `List.drop` provide the clamping at the
length. -/
def normIdx (n : Nat) (i : Int) : Nat :=
  if i < 0 then ((n : Int) + i).toNat else i.toNat

/-- Python slice `l[a:b]` (step 1). -/
def pySlice {α : Type} (l : List α) (a b : Int) : List α :=
  (l.take (normIdx l.length b)).drop (normIdx l.length a)

/-- Python slice `l[:b]` (step 1). -/
def pyTake {α : Type} (l : List α) (b : Int) : List α :=
  l.take (normIdx l.length b)

/-!  Embedding of `diagnnose/downstream/tasks/linzen.py`. -/

/-- RawItem: the original corpus structure contains these 18 fields
(`linzen.py`, lines 15-35). -/
structure RawItem where
  sentence : String
  orig_sentence : String
  pos_sentence : String
  subj : String
  verb : String
  subj_pos : String
  has_rel : String
  has_nsubj : String
  verb_pos : String
  subj_index : String
  verb_index : String
  n_intervening : String
  last_intervening : String
  n_diff_intervening : String
  distance : String
  max_depth : String
  all_nouns : String
  nouns_up_to_verb : String
  deriving DecidableEq

/-- Python `RawItem(*fields)`: succeeds exactly when the field list has the
18 entries of the named tuple, in order; any other arity raises
`TypeError`. -/
def rawItemOfFields : List String → Option RawItem
  | [f1, f2, f3, f4, f5, f6, f7, f8, f9, f10, f11, f12, f13, f14, f15, f16, f17, f18] =>
    some ⟨f1, f2, f3, f4, f5, f6, f7, f8, f9, f10, f11, f12, f13, f14, f15, f16, f17, f18⟩
  | _ => none

/-- Tag-to-letter mapping and concatenation used by
`item_to_sva_condition`: `pos_mapping = {"NNS": "P", "NN": "S"}` with
default `""`, joined by `"".join`. -/
def condOfTags (tags : List String) : String :=
  pyJoin (tags.map fun t => if t = "NNS" then "P" else if t = "NN" then "S" else "")

/-- Embedding of `item_to_sva_condition` (`linzen.py`, lines 123-138):
`pos_sen[int(item.subj_index) - 1 : int(item.verb_index)]` mapped through
`pos_mapping` and joined.  A non-numeric index field raises `ValueError`
(from `int(...)`). -/
def item_to_sva_condition (item : RawItem) : Except PyError String :=
  match pyInt item.subj_index, pyInt item.verb_index with
  | some s, some v =>
    .ok (condOfTags (pySlice (pySplitWs item.pos_sentence) (s - 1) v))
  | _, _ => .error .valueError

/-- Appending step behind `raw_corpora.setdefault(sva_condition, []).append(item)`. -/
def rawInsert (acc : PyDict String (List RawItem)) (cond : String) (item : RawItem) :
    PyDict String (List RawItem) :=
  match dget acc cond with
  | some l => dset acc cond (l ++ [item])
  | none => dset acc cond [item]

/-- Row loop of `create_raw_corpora`: split each line on tabs after
stripping, build the `RawItem` (raising `TypeError` on a wrong field
count), classify it, and keep it when its condition is requested. -/
def rawLoop (subtasks : List String) :
    List String → PyDict String (List RawItem) →
    Except PyError (PyDict String (List RawItem))
  | [], acc => .ok acc
  | line :: rest, acc =>
    match rawItemOfFields (pySplitTab (pyStrip line)) with
    | none => .error .typeError
    | some item =>
      match item_to_sva_condition item with
      | .error e => .error e
      | .ok cond =>
        if cond ∈ subtasks then rawLoop subtasks rest (rawInsert acc cond item)
        else rawLoop subtasks rest acc

/-- Embedding of `create_raw_corpora` (`linzen.py`, lines 110-121).  The
file is given as its list of lines; `next(f)` skips the header (raising
`StopIteration` on an empty file). -/
def create_raw_corpora (corpusLines : List String) (subtasks : List String) :
    Except PyError (PyDict String (List RawItem)) :=
  match corpusLines with
  | [] => .error .stopIteration
  | _ :: rows => rawLoop subtasks rows []

/-- Line loop of `create_verb_inflections` over `wiki.vocab`: unpack
`word, pos, _ = line.strip().split()` (raising `ValueError` unless exactly
three fields) and append in-vocabulary words to the `"VBP"` / `"VBZ"`
buckets. -/
def posLoop (vocab : List String) :
    List String → List String × List String →
    Except PyError (List String × List String)
  | [], acc => .ok acc
  | line :: rest, (vbp, vbz) =>
    match pySplitWs (pyStrip line) with
    | [word, pos, _] =>
      if word ∈ vocab then
        if pos = "VBP" then posLoop vocab rest (vbp ++ [word], vbz)
        else if pos = "VBZ" then posLoop vocab rest (vbp, vbz ++ [word])
        else posLoop vocab rest (vbp, vbz)
      else posLoop vocab rest (vbp, vbz)
    | _ => .error .valueError

/-- The `(VBP, VBZ)` buckets read from `wiki.vocab` (first line skipped). -/
def posTokens (vocabLines wikiLines : List String) :
    Except PyError (List String × List String) :=
  match wikiLines with
  | [] => .error .stopIteration
  | _ :: rows => posLoop (vocabLines.map pyStrip) rows ([], [])

/-- Table loop of `create_verb_inflections`: for each VBZ word whose
oracle-proposed plural is in the VBP bucket, register
`verb_inflections[candidate] = word` then `verb_inflections[word] = candidate`. -/
def inflLoop (plural_verb : String → String) (vbp : List String) :
    List String → PyDict String String → PyDict String String
  | [], d => d
  | w :: ws, d =>
    if plural_verb w ∈ vbp then
      inflLoop plural_verb vbp ws (dset (dset d (plural_verb w) w) w (plural_verb w))
    else inflLoop plural_verb vbp ws d

/-- Embedding of `create_verb_inflections` (`linzen.py`, lines 185-221).
The model vocabulary file and `wiki.vocab` are given as their lines; the
`inflect` engine's `plural_verb` is the injected morphological oracle. -/
def create_verb_inflections (vocabLines wikiLines : List String)
    (plural_verb : String → String) : Except PyError (PyDict String String) :=
  match posTokens vocabLines wikiLines with
  | .error e => .error e
  | .ok (vbp, vbz) => .ok (inflLoop plural_verb vbp vbz [])

/-- AgreementExample triple built by `Example.fromlist([subsen, item.verb,
opposite_verb], fields)`; the torchtext `Example` is modelled as the
record of its three columns. -/
structure Example where
  sen : List String
  token : String
  wrong_token : String
  deriving DecidableEq

/-- Embedding of `item_to_example` (`linzen.py`, lines 164-183), with the
`unidecode` transliteration injected as `translit`.  The sentence is
replaced by its transliteration only when some character has a code point
of 256 or above (`not all(ord(c) < 256 ...)`), the context is
`orig_sentence.split()[: int(item.verb_index) - 1]`, and a verb without an
inflection entry yields `None` instead of an example. -/
def item_to_example (translit : String → String)
    (verb_inflections : PyDict String String) (item : RawItem) :
    Except PyError (Option Example) :=
  let orig := item.orig_sentence
  let orig := if orig.data.all (fun c => c.toNat < 256) then orig else translit orig
  match pyInt item.verb_index with
  | none => .error .valueError
  | some v =>
    let subsen := pyTake (pySplitWs orig) (v - 1)
    match dget verb_inflections item.verb with
    | none => .ok none
    | some opposite_verb => .ok (some ⟨subsen, item.verb, opposite_verb⟩)

/-- Example loop of `create_corpus`: the list comprehension
`[self.item_to_example(item, ...) for item in items]` (errors propagate,
`None` entries are kept for the later `filter`). -/
def exLoop (translit : String → String) (verb_inflections : PyDict String String) :
    List RawItem → Except PyError (List (Option Example))
  | [] => .ok []
  | item :: rest =>
    match item_to_example translit verb_inflections item with
    | .error e => .error e
    | .ok e =>
      match exLoop translit verb_inflections rest with
      | .error e2 => .error e2
      | .ok l => .ok (e :: l)

/-- Embedding of `create_corpus` (`linzen.py`, lines 140-162):
`filter(None, examples)` then `examples[:items_per_subtask]` when a cap is
given.  The `Corpus` class lives outside the sources under scrutiny; a
corpus is modelled as its ordered list of examples. -/
def create_corpus (translit : String → String) (items : List RawItem)
    (verb_inflections : PyDict String String) (items_per_subtask : Option Int) :
    Except PyError (List Example) :=
  match exLoop translit verb_inflections items with
  | .error e => .error e
  | .ok opts =>
    let examples := opts.reduceOption
    .ok (match items_per_subtask with
         | some n => pyTake examples n
         | none => examples)

/-- Nested update `corpora.setdefault(n_attractors, {})[condition] = corpus`. -/
def setdefault2 (out : PyDict String (PyDict String (List Example)))
    (k1 k2 : String) (corpus : List Example) :
    PyDict String (PyDict String (List Example)) :=
  match dget out k1 with
  | some inner => dset out k1 (dset inner k2 corpus)
  | none => dset out k1 [(k2, corpus)]

/-- Condition loop of `create_corpora`: one `create_corpus` per condition,
stored under `str(len(condition))`. -/
def corporaLoop (translit : String → String)
    (verb_inflections : PyDict String String) (items_per_subtask : Option Int) :
    PyDict String (List RawItem) → PyDict String (PyDict String (List Example)) →
    Except PyError (PyDict String (PyDict String (List Example)))
  | [], out => .ok out
  | (cond, items) :: rest, out =>
    match create_corpus translit items verb_inflections items_per_subtask with
    | .error e => .error e
    | .ok corpus =>
      corporaLoop translit verb_inflections items_per_subtask rest
        (setdefault2 out (pyStr (pyLen cond)) cond corpus)

/-- Embedding of `create_corpora` (`linzen.py`, lines 92-108). -/
def create_corpora (corpusLines vocabLines wikiLines : List String)
    (subtasks : List String) (items_per_subtask : Option Int)
    (plural_verb translit : String → String) :
    Except PyError (PyDict String (PyDict String (List Example))) :=
  match create_raw_corpora corpusLines subtasks with
  | .error e => .error e
  | .ok raw =>
    match create_verb_inflections vocabLines wikiLines plural_verb with
    | .error e => .error e
    | .ok verb_inflections =>
      corporaLoop translit verb_inflections items_per_subtask raw []

/-- Default subtask set of `initialize` (`linzen.py`, line 84). -/
def defaultSubtasks : List String :=
  ["SS", "SP", "PS", "PP", "SPP", "PSS", "SPPP", "PSSS"]

/-- Declared default of the `items_per_subtask` keyword of `initialize`
(`linzen.py`, line 58): omitting the argument passes `1000`, not `None`. -/
def items_per_subtask_default : Option Int := some 1000

/-- Embedding of `initialize` (`linzen.py`, lines 54-90):
`subtasks = subtasks or [...]` (both `None` and an empty list fall back to
the default set) followed by `create_corpora`. -/
def initializeLinzen (corpusLines vocabLines wikiLines : List String)
    (subtasks : Option (List String)) (items_per_subtask : Option Int)
    (plural_verb translit : String → String) :
    Except PyError (PyDict String (PyDict String (List Example))) :=
  let subtasks :=
    match subtasks with
    | none => defaultSubtasks
    | some [] => defaultSubtasks
    | some l => l
  create_corpora corpusLines vocabLines wikiLines subtasks items_per_subtask
    plural_verb translit

/-- Call of `initialize` with the `items_per_subtask` argument omitted, so
the declared default applies. -/
def initializeLinzenDefaultCap (corpusLines vocabLines wikiLines : List String)
    (subtasks : Option (List String)) (plural_verb translit : String → String) :
    Except PyError (PyDict String (PyDict String (List Example))) :=
  initializeLinzen corpusLines vocabLines wikiLines subtasks
    items_per_subtask_default plural_verb translit

/-!  Embedding of `diagnnose/activations/init_states.py`. -/

/-- One entry of `SizeDict`: the declared hidden (`"h"`) and cell (`"c"`)
widths of a recurrent layer.  The dict is keyed by consecutive layer
numbers, so it is modelled as a list indexed by position. -/
structure LayerSize where
  h : Nat
  c : Nat
  deriving DecidableEq

/-- Torch tensor, flattened: its shape and its (here always integral)
entries in row-major order.  The float entries of the real tensors are only
ever zeros or copies here, so integer entries lose nothing. -/
structure Tensor where
  shape : List Nat
  data : List Int
  deriving DecidableEq

/-- Model of `torch.zeros((batch_size, size))`
(`InitStates._create_zero_state`, `init_states.py`, lines 119-121). -/
def torchZeros (batch_size size : Nat) : Tensor :=
  ⟨[batch_size, size], List.replicate (batch_size * size) 0⟩

/-- Model of `t.size(0)`: the leading dimension (0-dimensional tensors,
which cannot arise here, give 0). -/
def sizeAt0 (t : Tensor) : Nat := t.shape.headD 0

/-- ActivationTensors: dict from `(layer, "hx"/"cx")` to a tensor. -/
abbrev StateDict := PyDict (Nat × String) Tensor

/-- Layer loop of `create_zero_state`: for each layer first
`init_states[layer, "cx"]`, then `init_states[layer, "hx"]`, both of width
`self.sizes[layer]["c"]`. -/
def zeroLoop (batch_size : Nat) : Nat → List LayerSize → StateDict → StateDict
  | _, [], d => d
  | layer, ls :: rest, d =>
    zeroLoop batch_size (layer + 1) rest
      (dset (dset d (layer, "cx") (torchZeros batch_size ls.c))
        (layer, "hx") (torchZeros batch_size ls.c))

/-- Embedding of `create_zero_state` (`init_states.py`, lines 59-71). -/
def create_zero_state (sizes : List LayerSize) (batch_size : Nat) : StateDict :=
  zeroLoop batch_size 0 sizes []

/-- Layer loop of `_validate`: per layer, assert that the `hx` and `cx`
keys are present, then that `hx` has leading dimension `sizes[layer]["h"]`,
then that `cx` has leading dimension `sizes[layer]["c"]`.  A failed
`assert` raises `AssertionError`. -/
def validateLoop (init_states : StateDict) : Nat → List LayerSize → Except PyError Unit
  | _, [] => .ok ()
  | layer, ls :: rest =>
    match dget init_states (layer, "hx"), dget init_states (layer, "cx") with
    | some thx, some tcx =>
      if sizeAt0 thx = ls.h then
        if sizeAt0 tcx = ls.c then validateLoop init_states (layer + 1) rest
        else .error .assertionError
      else .error .assertionError
    | _, _ => .error .assertionError

/-- Embedding of `_validate` (`init_states.py`, lines 73-101): first
`assert len(init_states) == self.num_layers`, then the per-layer checks. -/
def validate (sizes : List LayerSize) (init_states : StateDict) : Except PyError Unit :=
  if init_states.length = sizes.length then validateLoop init_states 0 sizes
  else .error .assertionError

/-- Model of `torch.repeat_interleave(t.unsqueeze(0), batch_size, dim=0)`:
a new leading batch dimension holding `batch_size` copies of the tensor. -/
def expandTensor (t : Tensor) (batch_size : Nat) : Tensor :=
  ⟨batch_size :: t.shape, (List.replicate batch_size t.data).flatten⟩

/-- Layer loop of `_expand_batch_size`: for each layer expand `cx`, then
`hx` (a missing key would raise `KeyError`; validation rules that out). -/
def expandLoop (init_states : StateDict) (batch_size : Nat) :
    Nat → Nat → StateDict → Except PyError StateDict
  | _, 0, acc => .ok acc
  | layer, n + 1, acc =>
    match dget init_states (layer, "cx"), dget init_states (layer, "hx") with
    | some tcx, some thx =>
      expandLoop init_states batch_size (layer + 1) n
        (dset (dset acc (layer, "cx") (expandTensor tcx batch_size))
          (layer, "hx") (expandTensor thx batch_size))
    | _, _ => .error .keyError

/-- Embedding of `_expand_batch_size` (`init_states.py`, lines 103-117). -/
def expand_batch_size (init_states : StateDict) (num_layers batch_size : Nat) :
    Except PyError StateDict :=
  expandLoop init_states batch_size 0 num_layers []

/-- Embedding of `InitStates.create` (`init_states.py`, lines 30-57): with
a configured state path the pickled dict is loaded, validated and expanded;
without one the zero state is produced.  The loaded dict is passed in
directly (`load_pickle` only deserialises the file). -/
def create (sizes : List LayerSize) (loaded : Option StateDict) (batch_size : Nat) :
    Except PyError StateDict :=
  match loaded with
  | some init_states =>
    match validate sizes init_states with
    | .error e => .error e
    | .ok _ => expand_batch_size init_states sizes.length batch_size
  | none => .ok (create_zero_state sizes batch_size)

/-!  Shared lemmas about the Python-dict and slicing models. -/

theorem dget_dset {α β : Type} [DecidableEq α] (d : PyDict α β) (k k' : α) (v : β) :
    dget (dset d k v) k' = if k = k' then some v else dget d k' := by
  induction d with
  | nil => simp [dget, dset]
  | cons p rest ih =>
    obtain ⟨k₀, v₀⟩ := p
    by_cases h0 : k₀ = k
    · subst h0
      by_cases h1 : k₀ = k'
      · subst h1; simp [dget, dset]
      · simp [dget, dset, h1]
    · by_cases h1 : k₀ = k'
      · subst h1
        have : k ≠ k₀ := fun h => h0 h.symm
        simp [dget, dset, h0, this]
      · simp [dget, dset, h0, h1, ih]

theorem dget_ne_none_iff {α β : Type} [DecidableEq α] (d : PyDict α β) (k : α) :
    dget d k ≠ none ↔ ∃ v, (k, v) ∈ d := by
  induction d with
  | nil => simp [dget]
  | cons p rest ih =>
    obtain ⟨k₀, v₀⟩ := p
    by_cases h : k₀ = k
    · subst h
      simp [dget]
    · have hne : ∀ v, ¬ ((k, v) = (k₀, v₀)) := by
        intro v hv
        exact h (congrArg Prod.fst hv).symm
      simp only [dget, if_neg h, List.mem_cons]
      constructor
      · intro hd
        obtain ⟨v, hv⟩ := ih.mp hd
        exact ⟨v, Or.inr hv⟩
      · rintro ⟨v, hv | hv⟩
        · exact absurd hv (hne v)
        · exact ih.mpr ⟨v, hv⟩

theorem pyTake_ofNonneg {α : Type} (l : List α) (b : Int) (hb : 0 ≤ b) :
    pyTake l b = l.take b.toNat := by
  unfold pyTake normIdx
  rw [if_neg (by omega)]

theorem pySlice_ofNonneg {α : Type} (l : List α) (a b : Int) (ha : 0 ≤ a) (hb : 0 ≤ b) :
    pySlice l a b = (l.take b.toNat).drop a.toNat := by
  unfold pySlice normIdx
  rw [if_neg (by omega), if_neg (by omega)]

theorem dget2_setdefault2 (out : PyDict String (PyDict String (List Example)))
    (K C : String) (v : List Example) (k1 k2 : String) :
    dget2 (setdefault2 out K C v) k1 k2 =
      if k1 = K then (if k2 = C then some v else dget2 out K k2)
      else dget2 out k1 k2 := by
  unfold setdefault2 dget2
  cases hK : dget out K with
  | some inner =>
    by_cases h1 : k1 = K
    · subst h1
      by_cases h2 : k2 = C
      · subst h2
        simp [dget_dset, hK]
      · simp [dget_dset, hK, h2, Ne.symm h2]
    · simp [dget_dset, h1, Ne.symm h1]
  | none =>
    by_cases h1 : k1 = K
    · subst h1
      by_cases h2 : k2 = C
      · subst h2
        simp [dget_dset, dget, hK]
      · simp [dget_dset, dget, hK, h2, Ne.symm h2]
    · simp [dget_dset, h1, Ne.symm h1]

/-!  Claim C1. -/

/-- Concrete corpus row used by several witnesses: a plural subject with
one singular attractor (`"PS"`), verb `walk` at 1-based position 6. -/
def linzenItemPS : RawItem :=
  ⟨"s", "the men under the bridge walk", "DT NNS IN DT NN VBP", "men", "walk", "NNS",
   "FALSE", "TRUE", "VBP", "2", "6", "1", "NN", "1", "4", "5", "x", "y"⟩

/-- C1: the condition code is a pure function of the POS-tag subsequence
from index `subj_index - 1` (inclusive) to `verb_index` (exclusive) of the
split POS sentence, obtained by mapping NNS to "P", NN to "S" and dropping
every other tag; in particular `["DT","NNS","IN","DT","NN"]` yields
`"PS"`. -/
theorem C1_condition_of_tag_subsequence (item : RawItem) (s v : Int)
    (hs : pyInt item.subj_index = some s) (hv : pyInt item.verb_index = some v)
    (h1 : 1 ≤ s) (h0 : 0 ≤ v) :
    item_to_sva_condition item =
      .ok (condOfTags (((pySplitWs item.pos_sentence).take v.toNat).drop (s - 1).toNat)) ∧
    condOfTags ["DT", "NNS", "IN", "DT", "NN"] = "PS" := by
  refine ⟨?_, rfl⟩
  simp only [item_to_sva_condition, hs, hv]
  rw [pySlice_ofNonneg _ _ _ (by omega) h0]

/-- Witness for C1 at the concrete `"PS"` row. -/
theorem C1_condition_of_tag_subsequence_witness :
    pyInt linzenItemPS.subj_index = some 2 ∧
    (item_to_sva_condition linzenItemPS =
      .ok (condOfTags (((pySplitWs linzenItemPS.pos_sentence).take (6 : Int).toNat).drop
        ((2 : Int) - 1).toNat)) ∧
    condOfTags ["DT", "NNS", "IN", "DT", "NN"] = "PS") :=
  ⟨rfl, C1_condition_of_tag_subsequence linzenItemPS 2 6 rfl rfl (by decide) (by decide)⟩

/-!  Claim C3. -/

theorem rawItemOfFields_length {fs : List String} {item : RawItem}
    (h : rawItemOfFields fs = some item) : fs.length = 18 := by
  unfold rawItemOfFields at h
  split at h
  · rfl
  · cases h

/-- C3 counterexample: a file whose second row has 2 fields makes the build
fail with `TypeError`, which is not the `CorpusFormatError` the claim
names (no such class exists in the repository). -/
theorem C3_corpus_format_error_counterexample :
    create_raw_corpora ["h", "a\tb"] ["PS"] = .error PyError.typeError ∧
    PyError.typeError ≠ PyError.corpusFormatError :=
  ⟨rfl, by decide⟩

/-- C3 amended: when every row before the offending one parses and
classifies cleanly and some row does not split into exactly 18 fields, the
build call fails by raising `TypeError` (the arity error of
`RawItem(*fields)`), not `CorpusFormatError`. -/
theorem C3_bad_row_raises (header bad : String) (good rest subtasks : List String)
    (hgood : ∀ l ∈ good, ∃ item cond,
      rawItemOfFields (pySplitTab (pyStrip l)) = some item ∧
      item_to_sva_condition item = Except.ok cond)
    (hbad : (pySplitTab (pyStrip bad)).length ≠ 18) :
    create_raw_corpora (header :: (good ++ bad :: rest)) subtasks =
      .error PyError.typeError := by
  have hbadF : rawItemOfFields (pySplitTab (pyStrip bad)) = none := by
    cases hx : rawItemOfFields (pySplitTab (pyStrip bad)) with
    | none => rfl
    | some item => exact absurd (rawItemOfFields_length hx) hbad
  have main : ∀ (g : List String),
      (∀ l ∈ g, ∃ item cond,
        rawItemOfFields (pySplitTab (pyStrip l)) = some item ∧
        item_to_sva_condition item = Except.ok cond) →
      ∀ acc, rawLoop subtasks (g ++ bad :: rest) acc = .error PyError.typeError := by
    intro g
    induction g with
    | nil =>
      intro _ acc
      simp only [List.nil_append, rawLoop, hbadF]
    | cons l g ih =>
      intro hg acc
      obtain ⟨item, cond, hitem, hcond⟩ := hg l (List.mem_cons_self l g)
      simp only [List.cons_append, rawLoop, hitem, hcond]
      by_cases hc : cond ∈ subtasks
      · rw [if_pos hc]
        exact ih (fun x hx => hg x (List.mem_cons_of_mem _ hx)) _
      · rw [if_neg hc]
        exact ih (fun x hx => hg x (List.mem_cons_of_mem _ hx)) _
  exact main good hgood []

/-- Witness for C3 with an empty run of good rows. -/
theorem C3_bad_row_raises_witness :
    create_raw_corpora ["h", "a\tb"] ["PS"] = .error PyError.typeError ∧
    (pySplitTab (pyStrip "a\tb")).length ≠ 18 :=
  ⟨C3_bad_row_raises "h" "a\tb" [] [] ["PS"]
    (fun l hl => absurd hl (List.not_mem_nil l)) (by decide), by decide⟩

/-!  Claim C4. -/

/-- Ways a loaded state dict can fail the per-layer checks of `_validate`:
a missing `(layer, hx)` or `(layer, cx)` key, or a leading dimension that
differs from the declared width for that kind. -/
def layerBad (init_states : StateDict) (layer : Nat) (ls : LayerSize) : Prop :=
  dget init_states (layer, "hx") = none ∨
  dget init_states (layer, "cx") = none ∨
  (∃ t, dget init_states (layer, "hx") = some t ∧ sizeAt0 t ≠ ls.h) ∨
  (∃ t, dget init_states (layer, "cx") = some t ∧ sizeAt0 t ≠ ls.c)

theorem validateLoop_error_eq {st : StateDict} {szs : List LayerSize} {i : Nat}
    {e : PyError} (h : validateLoop st i szs = .error e) : e = .assertionError := by
  induction szs generalizing i with
  | nil => cases h
  | cons ls rest ih =>
    unfold validateLoop at h
    split at h
    · split at h
      · split at h
        · exact ih h
        · exact (Except.error.inj h).symm
      · exact (Except.error.inj h).symm
    · exact (Except.error.inj h).symm

theorem validateLoop_ne_ok {st : StateDict} {szs : List LayerSize} {i : Nat}
    (h : ∃ j ls, szs.get? j = some ls ∧ layerBad st (i + j) ls) :
    validateLoop st i szs ≠ .ok () := by
  induction szs generalizing i with
  | nil =>
    obtain ⟨j, ls, hj, _⟩ := h
    cases hj
  | cons ls0 rest ih =>
    obtain ⟨j, ls, hj, hb⟩ := h
    intro hok
    cases j with
    | zero =>
      have hls : ls0 = ls := by
        simpa using hj
      subst hls
      rw [Nat.add_zero] at hb
      cases hhx : dget st (i, "hx") with
      | none =>
        cases hcx : dget st (i, "cx") with
        | none =>
          simp only [validateLoop, hhx, hcx] at hok
          cases hok
        | some tcx =>
          simp only [validateLoop, hhx, hcx] at hok
          cases hok
      | some thx =>
        cases hcx : dget st (i, "cx") with
        | none =>
          simp only [validateLoop, hhx, hcx] at hok
          cases hok
        | some tcx =>
          simp only [validateLoop, hhx, hcx] at hok
          rcases hb with h1 | h1 | ⟨t, ht, hsz⟩ | ⟨t, ht, hsz⟩
          · rw [hhx] at h1
            cases h1
          · rw [hcx] at h1
            cases h1
          · rw [hhx] at ht
            injection ht with ht
            subst ht
            rw [if_neg hsz] at hok
            cases hok
          · rw [hcx] at ht
            injection ht with ht
            subst ht
            by_cases hts : sizeAt0 thx = ls0.h
            · rw [if_pos hts, if_neg hsz] at hok
              cases hok
            · rw [if_neg hts] at hok
              cases hok
    | succ j' =>
      have e1 : i + (j' + 1) = (i + 1) + j' := by omega
      rw [e1] at hb
      have hj' : rest.get? j' = some ls := by
        simpa using hj
      unfold validateLoop at hok
      split at hok
      · split at hok
        · split at hok
          · exact ih ⟨j', ls, hj', hb⟩ hok
          · cases hok
        · cases hok
      · cases hok

/-- C4 counterexample: loading a state dict whose entry count (0) differs
from the layer count (1) raises `AssertionError`, which is not the
`ShapeMismatchError` the claim names (no such class exists in the
repository). -/
theorem C4_shape_error_class_counterexample :
    create [⟨2, 3⟩] (some []) 1 = .error PyError.assertionError ∧
    PyError.assertionError ≠ PyError.shapeMismatchError :=
  ⟨rfl, by decide⟩

/-- C4 amended: loading a persisted state structure whose number of
entries differs from the number of layers — and more generally one missing
a `(layer, hx/cx)` pair or whose tensor's leading dimension differs from
the declared width for that kind — makes `create` raise `AssertionError`
(the checks are plain `assert` statements; `ShapeMismatchError` does not
exist in the repository). -/
theorem C4_state_mismatch_raises (sizes : List LayerSize) (st : StateDict) (b : Nat)
    (hfail : st.length ≠ sizes.length ∨
      ∃ j ls, sizes.get? j = some ls ∧ layerBad st j ls) :
    create sizes (some st) b = .error PyError.assertionError := by
  have hv : validate sizes st = .error PyError.assertionError := by
    unfold validate
    by_cases hlen : st.length = sizes.length
    · rw [if_pos hlen]
      rcases hfail with h | h
      · exact absurd hlen h
      · have hne := @validateLoop_ne_ok st sizes 0
          (by simpa using h)
        cases hres : validateLoop st 0 sizes with
        | ok u =>
          cases u
          exact absurd hres hne
        | error e =>
          rw [validateLoop_error_eq hres]
    · rw [if_neg hlen]
  simp only [create, hv]

/-- Concrete mis-shaped state used in the C4 witness: the `hx` tensor has
leading dimension 5 where the spec declares 2. -/
def stBadC4 : StateDict :=
  [((0, "hx"), ⟨[5], [0, 0, 0, 0, 0]⟩), ((0, "cx"), ⟨[3], [0, 0, 0]⟩)]

/-- Witness for C4 at a concrete wrong-width state dict. -/
theorem C4_state_mismatch_raises_witness :
    create [⟨2, 3⟩] (some stBadC4) 2 = .error PyError.assertionError :=
  C4_state_mismatch_raises [⟨2, 3⟩] stBadC4 2
    (Or.inr ⟨0, ⟨2, 3⟩, rfl,
      Or.inr (Or.inr (Or.inl ⟨⟨[5], [0, 0, 0, 0, 0]⟩, rfl, by decide⟩))⟩)

/-!  Claim C5. -/

/-- Transliteration stand-in used by the C5 counterexample: what
`unidecode` would produce for the sentence at hand. -/
def translitElC5 : String → String := fun _ => "El runs"

/-- Corpus row whose original sentence contains `È` (code point 200:
above ASCII, below 256). -/
def itemC5 : RawItem :=
  ⟨"s", "Èl runs", "X VBZ", "Èl", "runs", "NN", "F", "T", "VBZ", "1", "2", "0", "",
   "0", "1", "1", "x", "y"⟩

/-- C5 counterexample: the sentence contains a character above the ASCII
range (`È`, 200), yet the code does not transliterate (its gate is
`ord(c) < 256`), so the context tokens disagree with the claim's
prediction from the transliterated sentence. -/
theorem C5_ascii_threshold_counterexample :
    item_to_example translitElC5 [("runs", "run")] itemC5 =
      .ok (some ⟨["Èl"], "runs", "run"⟩) ∧
    (itemC5.orig_sentence.data.any fun c => 127 < c.toNat) = true ∧
    (["Èl"] : List String) ≠
      pyTake (pySplitWs (translitElC5 itemC5.orig_sentence)) ((2 : Int) - 1) :=
  ⟨rfl, by decide, by decide⟩

/-- C5 amended: the sentence is transliterated before splitting if and
only if some character's code point is 256 or above (not the ASCII bound
127), and the context is exactly the split tokens strictly before the verb
position (indices 0 through `verb_index - 2`). -/
theorem C5_latin1_gate_and_context (translit : String → String)
    (verb_inflections : PyDict String String) (item : RawItem) (v : Int) (w : String)
    (hv : pyInt item.verb_index = some v) (h1 : 1 ≤ v)
    (hw : dget verb_inflections item.verb = some w) :
    item_to_example translit verb_inflections item =
      .ok (some ⟨(pySplitWs (if item.orig_sentence.data.all fun c => c.toNat < 256
          then item.orig_sentence else translit item.orig_sentence)).take (v - 1).toNat,
        item.verb, w⟩) := by
  simp only [item_to_example, hv, hw]
  rw [pyTake_ofNonneg _ _ (by omega : (0 : Int) ≤ v - 1)]

/-- All-ASCII corpus row for the C5 witness. -/
def itemC5b : RawItem :=
  ⟨"s", "the cat runs", "DT NN VBZ", "cat", "runs", "NN", "F", "T", "VBZ", "2", "3",
   "0", "", "0", "1", "1", "x", "y"⟩

/-- Witness for C5 at a concrete all-ASCII row. -/
theorem C5_latin1_gate_and_context_witness :
    item_to_example id [("runs", "run")] itemC5b =
      .ok (some ⟨(pySplitWs (if itemC5b.orig_sentence.data.all fun c => c.toNat < 256
          then itemC5b.orig_sentence else id itemC5b.orig_sentence)).take
            ((3 : Int) - 1).toNat,
        itemC5b.verb, "run"⟩) :=
  C5_latin1_gate_and_context id [("runs", "run")] itemC5b 3 "run" rfl (by decide) rfl

/-!  Claim C7. -/

/-- C7: with a configured cap `n`, the produced corpus is exactly the
first `n` surviving examples, in original order, and its size is
`min n available` where `available` is the uncapped corpus size. -/
theorem C7_cap_truncation (translit : String → String) (items : List RawItem)
    (verb_inflections : PyDict String String) (n : Int) (hn : 0 ≤ n)
    (l : List Example)
    (h : create_corpus translit items verb_inflections none = .ok l) :
    create_corpus translit items verb_inflections (some n) = .ok (l.take n.toNat) ∧
    (l.take n.toNat).length = min n.toNat l.length := by
  unfold create_corpus at h ⊢
  cases hex : exLoop translit verb_inflections items with
  | error e =>
    rw [hex] at h
    cases h
  | ok opts =>
    rw [hex] at h
    have hl : opts.reduceOption = l := by
      simpa using h
    subst hl
    refine ⟨?_, List.length_take _ _⟩
    simp only [pyTake_ofNonneg _ _ hn]

/-- Verb-inflection table for the `walk` row witnesses. -/
def viWalk : PyDict String String := [("walk", "walks")]

/-- Surviving example built from `linzenItemPS` under `viWalk`. -/
def exWalk : Example :=
  ⟨["the", "men", "under", "the", "bridge"], "walk", "walks"⟩

/-- Witness for C7 at a concrete one-item corpus with cap 3. -/
theorem C7_cap_truncation_witness :
    create_corpus id [linzenItemPS] viWalk (some 3) =
      .ok ([exWalk].take (3 : Int).toNat) ∧
    ([exWalk].take (3 : Int).toNat).length = min (3 : Int).toNat [exWalk].length :=
  C7_cap_truncation id [linzenItemPS] viWalk 3 (by decide) [exWalk] rfl

/-!  Claim C8. -/

theorem zeroLoop_dget_lt (b : Nat) (szs : List LayerSize) :
    ∀ (i : Nat) (d : StateDict) (l : Nat) (k : String), l < i →
      dget (zeroLoop b i szs d) (l, k) = dget d (l, k) := by
  induction szs with
  | nil =>
    intro i d l k _
    rfl
  | cons ls rest ih =>
    intro i d l k h
    have hne1 : ((i : Nat), ("hx" : String)) ≠ (l, k) := by
      intro heq
      have := congrArg Prod.fst heq
      simp only at this
      omega
    have hne2 : ((i : Nat), ("cx" : String)) ≠ (l, k) := by
      intro heq
      have := congrArg Prod.fst heq
      simp only at this
      omega
    simp only [zeroLoop]
    rw [ih (i + 1) _ l k (by omega), dget_dset, if_neg hne1, dget_dset, if_neg hne2]

theorem zeroLoop_dget (b : Nat) (szs : List LayerSize) :
    ∀ (i j : Nat) (ls : LayerSize) (d : StateDict), szs.get? j = some ls →
      dget (zeroLoop b i szs d) (i + j, "hx") = some (torchZeros b ls.c) ∧
      dget (zeroLoop b i szs d) (i + j, "cx") = some (torchZeros b ls.c) := by
  induction szs with
  | nil =>
    intro i j ls d h
    cases h
  | cons ls0 rest ih =>
    intro i j ls d h
    cases j with
    | zero =>
      have hls : ls0 = ls := by
        simpa using h
      subst hls
      have hne : ((i : Nat), ("hx" : String)) ≠ (i, "cx") := by
        intro heq
        have h2 : ("hx" : String) = "cx" := congrArg Prod.snd heq
        exact absurd h2 (by decide)
      constructor
      · rw [Nat.add_zero]
        simp only [zeroLoop]
        rw [zeroLoop_dget_lt b rest (i + 1) _ i "hx" (by omega), dget_dset, if_pos rfl]
      · rw [Nat.add_zero]
        simp only [zeroLoop]
        rw [zeroLoop_dget_lt b rest (i + 1) _ i "cx" (by omega), dget_dset,
          if_neg hne, dget_dset, if_pos rfl]
    | succ j' =>
      have e1 : i + (j' + 1) = (i + 1) + j' := by omega
      rw [e1]
      simp only [zeroLoop]
      exact ih (i + 1) j' ls _ (by simpa using h)

/-- C8: for every layer of the spec and every batch size, the zero state
holds a hidden and a cell tensor of shape `(batchSize, cellWidth)` filled
with zeros, the hidden width being read from the layer's cell-size field. -/
theorem C8_zero_state_shapes (sizes : List LayerSize) (b : Nat) (l : Nat)
    (ls : LayerSize) (h : sizes.get? l = some ls) :
    dget (create_zero_state sizes b) (l, "hx") = some (torchZeros b ls.c) ∧
    dget (create_zero_state sizes b) (l, "cx") = some (torchZeros b ls.c) ∧
    (torchZeros b ls.c).shape = [b, ls.c] ∧
    ∀ x ∈ (torchZeros b ls.c).data, x = 0 := by
  have hz := zeroLoop_dget b sizes 0 l ls [] h
  rw [Nat.zero_add] at hz
  exact ⟨hz.1, hz.2, rfl, fun x hx => List.eq_of_mem_replicate hx⟩

/-- Witness for C8 at a one-layer spec with `h = 2`, `c = 3`, batch 4. -/
theorem C8_zero_state_shapes_witness :
    dget (create_zero_state [⟨2, 3⟩] 4) (0, "hx") = some (torchZeros 4 3) ∧
    dget (create_zero_state [⟨2, 3⟩] 4) (0, "cx") = some (torchZeros 4 3) ∧
    (torchZeros 4 3).shape = [4, 3] ∧
    ∀ x ∈ (torchZeros 4 3).data, x = 0 :=
  C8_zero_state_shapes [⟨2, 3⟩] 4 0 ⟨2, 3⟩ rfl

/-!  Claim C9. -/

theorem exLoop_spec (translit : String → String)
    (verb_inflections : PyDict String String) :
    ∀ (items : List RawItem) (opts : List (Option Example)),
      exLoop translit verb_inflections items = .ok opts →
      opts.reduceOption.length +
        (items.filter fun it => (dget verb_inflections it.verb).isNone).length =
        items.length ∧
      ∀ it ∈ items, dget verb_inflections it.verb = none →
        item_to_example translit verb_inflections it = .ok none := by
  intro items
  induction items with
  | nil =>
    intro opts h
    have : opts = [] := by
      simpa [exLoop] using h.symm
    subst this
    simp
  | cons it rest ih =>
    intro opts h
    unfold exLoop at h
    cases hie : item_to_example translit verb_inflections it with
    | error e =>
      rw [hie] at h
      cases h
    | ok e =>
      rw [hie] at h
      cases hrest : exLoop translit verb_inflections rest with
      | error e2 =>
        rw [hrest] at h
        cases h
      | ok lrest =>
        rw [hrest] at h
        have hopts : opts = e :: lrest := by
          simpa using h.symm
        subst hopts
        obtain ⟨ihcount, ihnone⟩ := ih lrest hrest
        have hverb : (dget verb_inflections it.verb = none ∧ e = none) ∨
            ∃ w, dget verb_inflections it.verb = some w ∧ e ≠ none := by
          unfold item_to_example at hie
          cases hpi : pyInt it.verb_index with
          | none =>
            rw [hpi] at hie
            cases hie
          | some v =>
            rw [hpi] at hie
            cases hdg : dget verb_inflections it.verb with
            | none =>
              rw [hdg] at hie
              exact Or.inl ⟨rfl, by simpa using hie.symm⟩
            | some w =>
              rw [hdg] at hie
              refine Or.inr ⟨w, rfl, ?_⟩
              intro hno
              rw [hno] at hie
              simp at hie
        constructor
        · rcases hverb with ⟨hdg, he⟩ | ⟨w, hdg, he⟩
          · subst he
            simp [List.reduceOption_cons_of_none, List.filter_cons, hdg]
            omega
          · obtain ⟨x, hx⟩ := Option.ne_none_iff_exists.mp he
            rw [← hx]
            simp [List.reduceOption_cons_of_some, List.filter_cons, hdg]
            omega
        · intro it2 hmem hdg2
          rcases List.mem_cons.mp hmem with heq | hmem2
          · subst heq
            rcases hverb with ⟨hdg, he⟩ | ⟨w, hdg, he⟩
            · rw [hie, he]
            · rw [hdg2] at hdg
              cases hdg
          · exact ihnone it2 hmem2 hdg2

/-- C9: an item whose verb has no inflection entry yields no example and
no error, and the (uncapped) corpus size equals the item count minus the
count of such items. -/
theorem C9_missing_inflection_drops (translit : String → String)
    (verb_inflections : PyDict String String) (items : List RawItem)
    (l : List Example)
    (hok : create_corpus translit items verb_inflections none = .ok l) :
    l.length = items.length -
      (items.filter fun it => (dget verb_inflections it.verb).isNone).length ∧
    ∀ it ∈ items, dget verb_inflections it.verb = none →
      item_to_example translit verb_inflections it = .ok none := by
  unfold create_corpus at hok
  cases hex : exLoop translit verb_inflections items with
  | error e =>
    rw [hex] at hok
    cases hok
  | ok opts =>
    rw [hex] at hok
    have hl : opts.reduceOption = l := by
      simpa using hok
    subst hl
    obtain ⟨hcount, hnone⟩ := exLoop_spec translit verb_inflections items opts hex
    exact ⟨by omega, hnone⟩

/-- Witness for C9: the single `walk` row against an empty inflection
table survives as zero examples without an error. -/
theorem C9_missing_inflection_drops_witness :
    ([] : List Example).length = [linzenItemPS].length -
      ([linzenItemPS].filter fun it => (dget ([] : PyDict String String) it.verb).isNone).length ∧
    ∀ it ∈ [linzenItemPS], dget ([] : PyDict String String) it.verb = none →
      item_to_example id ([] : PyDict String String) it = .ok none :=
  C9_missing_inflection_drops id [] [linzenItemPS] [] rfl

/-!  Claim C2. -/

theorem dget_pairset (d : PyDict String String) (w fw k : String) :
    dget (dset (dset d fw w) w fw) k =
      if w = k then some fw else if fw = k then some w else dget d k := by
  rw [dget_dset, dget_dset]

theorem inflLoop_sym (f : String → String) (vbp : List String) :
    ∀ (ws : List String) (d : PyDict String String),
      (∀ k v, dget d k = some v → dget d v = some k) →
      (∀ w ∈ ws, f w ∈ vbp → ∀ x, dget d x ≠ none → (x = w ∨ x = f w) →
        dget d w = some (f w) ∧ dget d (f w) = some w) →
      (∀ w ∈ ws, ∀ w' ∈ ws, f w ∈ vbp → f w' ∈ vbp →
        w = w' ∨ (w ≠ w' ∧ w ≠ f w' ∧ f w ≠ w' ∧ f w ≠ f w')) →
      ∀ k v, dget (inflLoop f vbp ws d) k = some v →
        dget (inflLoop f vbp ws d) v = some k := by
  intro ws
  induction ws with
  | nil =>
    intro d hsym _ _ k v hk
    exact hsym k v hk
  | cons w ws ih =>
    intro d hsym hcompat hdisj
    by_cases hfw : f w ∈ vbp
    · simp only [inflLoop, if_pos hfw]
      refine ih _ ?_ ?_ ?_
      · -- symmetry of the updated dict
        intro k v hk
        rw [dget_pairset] at hk
        rw [dget_pairset]
        by_cases h1 : w = k
        · rw [if_pos h1] at hk
          have hv : v = f w := by
            injection hk with hk
            exact hk.symm
          subst hv
          by_cases h2 : w = f w
          · rw [if_pos h2, ← h2, h1]
          · rw [if_neg h2, if_pos rfl, h1]
        · rw [if_neg h1] at hk
          by_cases h2 : f w = k
          · rw [if_pos h2] at hk
            have hv : v = w := by
              injection hk with hk
              exact hk.symm
            subst hv
            rw [if_pos rfl, h2]
          · rw [if_neg h2] at hk
            have hdk := hsym k v hk
            by_cases hv1 : w = v
            · subst hv1
              have hcc := hcompat w (List.mem_cons_self w ws) hfw w
                (by rw [hdk]; simp) (Or.inl rfl)
              have hk2 := hcc.1
              rw [hdk] at hk2
              injection hk2 with hk2
              exact absurd hk2.symm h2
            · by_cases hv2 : f w = v
              · rw [← hv2] at hdk
                have hcc := hcompat w (List.mem_cons_self w ws) hfw (f w)
                  (by rw [hdk]; simp) (Or.inr rfl)
                have hk2 := hcc.2
                rw [hdk] at hk2
                injection hk2 with hk2
                exact absurd hk2.symm h1
              · rw [if_neg hv1, if_neg hv2]
                exact hdk
      · -- pair-compatibility for the remaining words
        intro w' hw' hfw' x hx hxor
        rcases hdisj w (List.mem_cons_self w ws) w' (List.mem_cons_of_mem w hw')
            hfw hfw' with heq | ⟨hne1, hne2, hne3, hne4⟩
        · subst heq
          constructor
          · rw [dget_pairset, if_pos rfl]
          · rw [dget_pairset]
            by_cases h2 : w = f w
            · rw [if_pos h2, ← h2]
            · rw [if_neg h2, if_pos rfl]
        · have hxne1 : ¬ (w = x) := by
            rcases hxor with hx1 | hx1 <;> subst hx1
            · exact hne1
            · exact hne2
          have hxne2 : ¬ (f w = x) := by
            rcases hxor with hx1 | hx1 <;> subst hx1
            · exact hne3
            · exact hne4
          rw [dget_pairset, if_neg hxne1, if_neg hxne2] at hx
          obtain ⟨ha, hb⟩ := hcompat w' (List.mem_cons_of_mem w hw') hfw' x hx hxor
          constructor
          · rw [dget_pairset, if_neg (fun h => hne1 h), if_neg (fun h => hne3 h)]
            exact ha
          · rw [dget_pairset, if_neg (fun h => hne2 h), if_neg (fun h => hne4 h)]
            exact hb
      · intro a ha b hb
        exact hdisj a (List.mem_cons_of_mem w ha) b (List.mem_cons_of_mem w hb)
    · simp only [inflLoop, if_neg hfw]
      refine ih d hsym ?_ ?_
      · intro w' hw'
        exact hcompat w' (List.mem_cons_of_mem w hw')
      · intro a ha b hb
        exact hdisj a (List.mem_cons_of_mem w ha) b (List.mem_cons_of_mem w hb)

theorem inflLoop_preserve (f : String → String) (vbp : List String) :
    ∀ (ws : List String) (d : PyDict String String) (w : String),
      dget d w = some (f w) → dget d (f w) = some w →
      (∀ w' ∈ ws, f w' ∈ vbp →
        w' = w ∨ (w' ≠ w ∧ w' ≠ f w ∧ f w' ≠ w ∧ f w' ≠ f w)) →
      dget (inflLoop f vbp ws d) w = some (f w) ∧
      dget (inflLoop f vbp ws d) (f w) = some w := by
  intro ws
  induction ws with
  | nil =>
    intro d w h1 h2 _
    exact ⟨h1, h2⟩
  | cons w' ws ih =>
    intro d w h1 h2 hrel
    by_cases hfw' : f w' ∈ vbp
    · simp only [inflLoop, if_pos hfw']
      rcases hrel w' (List.mem_cons_self w' ws) hfw' with heq | ⟨a, b, c, dne⟩
      · subst heq
        refine ih _ w' ?_ ?_ ?_
        · rw [dget_pairset, if_pos rfl]
        · rw [dget_pairset]
          by_cases h3 : w' = f w'
          · rw [if_pos h3, ← h3]
          · rw [if_neg h3, if_pos rfl]
        · intro x hx
          exact hrel x (List.mem_cons_of_mem w' hx)
      · refine ih _ w ?_ ?_ ?_
        · rw [dget_pairset, if_neg a, if_neg c]
          exact h1
        · rw [dget_pairset, if_neg b, if_neg dne]
          exact h2
        · intro x hx
          exact hrel x (List.mem_cons_of_mem w' hx)
    · simp only [inflLoop, if_neg hfw']
      refine ih d w h1 h2 ?_
      intro x hx
      exact hrel x (List.mem_cons_of_mem w' hx)

theorem inflLoop_registers (f : String → String) (vbp : List String) :
    ∀ (ws : List String) (d : PyDict String String) (w : String),
      w ∈ ws → f w ∈ vbp →
      (∀ a ∈ ws, ∀ b ∈ ws, f a ∈ vbp → f b ∈ vbp →
        a = b ∨ (a ≠ b ∧ a ≠ f b ∧ f a ≠ b ∧ f a ≠ f b)) →
      dget (inflLoop f vbp ws d) w = some (f w) ∧
      dget (inflLoop f vbp ws d) (f w) = some w := by
  intro ws
  induction ws with
  | nil =>
    intro d w hmem
    cases hmem
  | cons w' ws ih =>
    intro d w hmem hfw hdisj
    rcases List.mem_cons.mp hmem with heq | hmem'
    · subst heq
      simp only [inflLoop, if_pos hfw]
      refine inflLoop_preserve f vbp ws _ w ?_ ?_ ?_
      · rw [dget_pairset, if_pos rfl]
      · rw [dget_pairset]
        by_cases h3 : w = f w
        · rw [if_pos h3, ← h3]
        · rw [if_neg h3, if_pos rfl]
      · intro x hx hfx
        exact hdisj x (List.mem_cons_of_mem w hx) w (List.mem_cons_self w ws) hfx hfw
    · by_cases hfw' : f w' ∈ vbp
      · simp only [inflLoop, if_pos hfw']
        refine ih _ w hmem' hfw ?_
        intro a ha b hb
        exact hdisj a (List.mem_cons_of_mem w' ha) b (List.mem_cons_of_mem w' hb)
      · simp only [inflLoop, if_neg hfw']
        refine ih d w hmem' hfw ?_
        intro a ha b hb
        exact hdisj a (List.mem_cons_of_mem w' ha) b (List.mem_cons_of_mem w' hb)

theorem inflLoop_keys (f : String → String) (vbp : List String) :
    ∀ (ws : List String) (d : PyDict String String) (k : String),
      dget (inflLoop f vbp ws d) k ≠ none →
      dget d k ≠ none ∨ ∃ w, w ∈ ws ∧ f w ∈ vbp ∧ (k = w ∨ k = f w) := by
  intro ws
  induction ws with
  | nil =>
    intro d k h
    exact Or.inl h
  | cons w ws ih =>
    intro d k h
    by_cases hfw : f w ∈ vbp
    · simp only [inflLoop, if_pos hfw] at h
      rcases ih _ k h with hd | ⟨w', hw', hfw', hk⟩
      · rw [dget_pairset] at hd
        by_cases h1 : w = k
        · exact Or.inr ⟨w, List.mem_cons_self w ws, hfw, Or.inl h1.symm⟩
        · rw [if_neg h1] at hd
          by_cases h2 : f w = k
          · exact Or.inr ⟨w, List.mem_cons_self w ws, hfw, Or.inr h2.symm⟩
          · rw [if_neg h2] at hd
            exact Or.inl hd
      · exact Or.inr ⟨w', List.mem_cons_of_mem w hw', hfw', hk⟩
    · simp only [inflLoop, if_neg hfw] at h
      rcases ih d k h with hd | ⟨w', hw', hfw', hk⟩
      · exact Or.inl hd
      · exact Or.inr ⟨w', List.mem_cons_of_mem w hw', hfw', hk⟩

theorem posLoop_vocab (vocab : List String) :
    ∀ (rows : List String) (acc res : List String × List String),
      posLoop vocab rows acc = .ok res →
      (∀ w ∈ acc.1, w ∈ vocab) → (∀ w ∈ acc.2, w ∈ vocab) →
      (∀ w ∈ res.1, w ∈ vocab) ∧ (∀ w ∈ res.2, w ∈ vocab) := by
  intro rows
  induction rows with
  | nil =>
    intro acc res h h1 h2
    obtain rfl : acc = res := by
      simpa [posLoop] using h
    exact ⟨h1, h2⟩
  | cons line rest ih =>
    intro acc res h h1 h2
    obtain ⟨vbp, vbz⟩ := acc
    simp only [posLoop] at h
    split at h
    · rename_i word pos third heq
      by_cases hin : word ∈ vocab
      · rw [if_pos hin] at h
        by_cases hvbp : pos = "VBP"
        · rw [if_pos hvbp] at h
          refine ih _ res h ?_ h2
          intro x hx
          rcases List.mem_append.mp hx with hx | hx
          · exact h1 x hx
          · rw [List.mem_singleton.mp hx]
            exact hin
        · rw [if_neg hvbp] at h
          by_cases hvbz : pos = "VBZ"
          · rw [if_pos hvbz] at h
            refine ih _ res h h1 ?_
            intro x hx
            rcases List.mem_append.mp hx with hx | hx
            · exact h2 x hx
            · rw [List.mem_singleton.mp hx]
              exact hin
          · rw [if_neg hvbz] at h
            exact ih _ res h h1 h2
      · rw [if_neg hin] at h
        exact ih _ res h h1 h2
    · cases h

/-- Model vocabulary for the C2 counterexample. -/
def vocabC2 : List String := ["runs", "walks", "run"]

/-- Tagged `wiki.vocab` lines (header first) for the C2 counterexample. -/
def wikiC2 : List String :=
  ["word pos freq", "runs VBZ 3", "walks VBZ 2", "run VBP 9"]

/-- Morphological oracle for the C2 counterexample: two VBZ words share
the proposed plural `run`. -/
def oracleC2 : String → String :=
  fun w => if w = "runs" then "run" else if w = "walks" then "run" else w

/-- Resulting table of the C2 counterexample: the second registration
overwrites `run ↦ runs` with `run ↦ walks`. -/
def tableC2 : PyDict String String :=
  [("run", "walks"), ("runs", "run"), ("walks", "run")]

/-- C2 counterexample: with two VBZ words whose oracle-proposed plural
coincides, the built table maps `runs ↦ run` but `run ↦ walks`, so
`table[table["runs"]] ≠ "runs"` and the table is not symmetric. -/
theorem C2_symmetry_counterexample :
    create_verb_inflections vocabC2 wikiC2 oracleC2 = .ok tableC2 ∧
    dget tableC2 "runs" = some "run" ∧
    dget tableC2 "run" = some "walks" ∧
    ("walks" : String) ≠ "runs" :=
  ⟨rfl, rfl, rfl, by decide⟩

/-- C2 amended: when the registered pairs of distinct VBZ words are
pairwise disjoint (no form of one registered pair occurs in another), the
verb-inflection table is symmetric, every key and value comes from the
model-vocabulary file's token set, and a pair is registered in both
directions exactly when a VBZ word's oracle-proposed plural lies in the
VBP set. -/
theorem C2_inflection_table_spec (vocabLines wikiLines : List String)
    (plural_verb : String → String) (vbp vbz : List String)
    (hpos : posTokens vocabLines wikiLines = .ok (vbp, vbz))
    (hdisj : ∀ w ∈ vbz, ∀ w' ∈ vbz, plural_verb w ∈ vbp → plural_verb w' ∈ vbp →
      w = w' ∨ (w ≠ w' ∧ w ≠ plural_verb w' ∧ plural_verb w ≠ w' ∧
        plural_verb w ≠ plural_verb w')) :
    create_verb_inflections vocabLines wikiLines plural_verb =
      .ok (inflLoop plural_verb vbp vbz []) ∧
    (∀ k v, dget (inflLoop plural_verb vbp vbz []) k = some v →
      dget (inflLoop plural_verb vbp vbz []) v = some k) ∧
    (∀ k v, dget (inflLoop plural_verb vbp vbz []) k = some v →
      k ∈ vocabLines.map pyStrip ∧ v ∈ vocabLines.map pyStrip) ∧
    (∀ w ∈ vbz, plural_verb w ∈ vbp →
      dget (inflLoop plural_verb vbp vbz []) w = some (plural_verb w) ∧
      dget (inflLoop plural_verb vbp vbz []) (plural_verb w) = some w) ∧
    (∀ k, dget (inflLoop plural_verb vbp vbz []) k ≠ none →
      ∃ w, w ∈ vbz ∧ plural_verb w ∈ vbp ∧ (k = w ∨ k = plural_verb w)) := by
  have hcvi : create_verb_inflections vocabLines wikiLines plural_verb =
      .ok (inflLoop plural_verb vbp vbz []) := by
    unfold create_verb_inflections
    rw [hpos]
  have hsub : (∀ w ∈ vbp, w ∈ vocabLines.map pyStrip) ∧
      (∀ w ∈ vbz, w ∈ vocabLines.map pyStrip) := by
    unfold posTokens at hpos
    cases wikiLines with
    | nil => cases hpos
    | cons hdr rows =>
      exact posLoop_vocab _ rows ([], []) (vbp, vbz) hpos (by simp) (by simp)
  have hsym := inflLoop_sym plural_verb vbp vbz []
    (fun k v h => by simp [dget] at h)
    (fun w _ _ x hx _ => absurd rfl hx)
    hdisj
  have hkeys : ∀ k, dget (inflLoop plural_verb vbp vbz []) k ≠ none →
      ∃ w, w ∈ vbz ∧ plural_verb w ∈ vbp ∧ (k = w ∨ k = plural_verb w) := by
    intro k hk
    rcases inflLoop_keys plural_verb vbp vbz [] k hk with hd | hgood
    · exact absurd rfl hd
    · exact hgood
  have hreg : ∀ w ∈ vbz, plural_verb w ∈ vbp →
      dget (inflLoop plural_verb vbp vbz []) w = some (plural_verb w) ∧
      dget (inflLoop plural_verb vbp vbz []) (plural_verb w) = some w :=
    fun w hw hfw => inflLoop_registers plural_verb vbp vbz [] w hw hfw hdisj
  refine ⟨hcvi, hsym, ?_, hreg, hkeys⟩
  intro k v hkv
  have hk : dget (inflLoop plural_verb vbp vbz []) k ≠ none := by
    rw [hkv]
    simp
  have hv : dget (inflLoop plural_verb vbp vbz []) v ≠ none := by
    rw [hsym k v hkv]
    simp
  obtain ⟨w1, hw1, hf1, hk1⟩ := hkeys k hk
  obtain ⟨w2, hw2, hf2, hk2⟩ := hkeys v hv
  constructor
  · rcases hk1 with h | h
    · rw [h]
      exact hsub.2 w1 hw1
    · rw [h]
      exact hsub.1 _ hf1
  · rcases hk2 with h | h
    · rw [h]
      exact hsub.2 w2 hw2
    · rw [h]
      exact hsub.1 _ hf2

/-- Model vocabulary for the C2 witness. -/
def vocabC2w : List String := ["runs", "run"]

/-- Tagged `wiki.vocab` lines for the C2 witness. -/
def wikiC2w : List String := ["word pos freq", "runs VBZ 3", "run VBP 9"]

/-- Collision-free oracle for the C2 witness. -/
def oracleC2w : String → String := fun w => if w = "runs" then "run" else w

/-- Witness for C2 at a concrete collision-free vocabulary. -/
theorem C2_inflection_table_spec_witness :
    dget (inflLoop oracleC2w ["run"] ["runs"] []) "runs" = some (oracleC2w "runs") ∧
    dget (inflLoop oracleC2w ["run"] ["runs"] []) (oracleC2w "runs") = some "runs" :=
  (C2_inflection_table_spec vocabC2w wikiC2w oracleC2w ["run"] ["runs"] rfl
    (by decide)).2.2.2.1 "runs" (by decide) (by decide)

/-!  Claim C6. -/

theorem corporaLoop_nesting (translit : String → String)
    (vi : PyDict String String) (cap : Option Int) :
    ∀ (rawlist : PyDict String (List RawItem))
      (acc out : PyDict String (PyDict String (List Example))),
      corporaLoop translit vi cap rawlist acc = .ok out →
      (∀ k1 k2, dget2 acc k1 k2 ≠ none → k1 = pyStr (pyLen k2)) →
      ∀ k1 k2, dget2 out k1 k2 ≠ none → k1 = pyStr (pyLen k2) := by
  intro rawlist
  induction rawlist with
  | nil =>
    intro acc out h hacc
    obtain rfl : acc = out := by
      simpa [corporaLoop] using h
    exact hacc
  | cons p rest ih =>
    intro acc out h hacc
    obtain ⟨cond, items⟩ := p
    simp only [corporaLoop] at h
    cases hc : create_corpus translit items vi cap with
    | error e =>
      rw [hc] at h
      cases h
    | ok corpus =>
      rw [hc] at h
      refine ih _ out h ?_
      intro k1 k2 hk
      rw [dget2_setdefault2] at hk
      by_cases h1 : k1 = pyStr (pyLen cond)
      · rw [if_pos h1] at hk
        by_cases h2 : k2 = cond
        · rw [h1, h2]
        · rw [if_neg h2] at hk
          rw [h1]
          exact hacc _ k2 hk
      · rw [if_neg h1] at hk
        exact hacc k1 k2 hk

theorem corporaLoop_presence (translit : String → String)
    (vi : PyDict String String) (cap : Option Int) :
    ∀ (rawlist : PyDict String (List RawItem))
      (acc out : PyDict String (PyDict String (List Example))),
      corporaLoop translit vi cap rawlist acc = .ok out →
      ∀ cond, (dget2 out (pyStr (pyLen cond)) cond ≠ none ↔
        dget2 acc (pyStr (pyLen cond)) cond ≠ none ∨
        ∃ items, (cond, items) ∈ rawlist) := by
  intro rawlist
  induction rawlist with
  | nil =>
    intro acc out h cond
    obtain rfl : acc = out := by
      simpa [corporaLoop] using h
    simp
  | cons p rest ih =>
    intro acc out h cond
    obtain ⟨c, items0⟩ := p
    simp only [corporaLoop] at h
    cases hc : create_corpus translit items0 vi cap with
    | error e =>
      rw [hc] at h
      cases h
    | ok corpus =>
      rw [hc] at h
      have ihinst := ih _ out h cond
      by_cases hcc : cond = c
      · subst hcc
        have hsome : dget2 (setdefault2 acc (pyStr (pyLen cond)) cond corpus)
            (pyStr (pyLen cond)) cond = some corpus := by
          rw [dget2_setdefault2, if_pos rfl, if_pos rfl]
        rw [hsome] at ihinst
        have hl : dget2 out (pyStr (pyLen cond)) cond ≠ none := by
          rw [ihinst]
          exact Or.inl (by simp)
        refine iff_of_true hl (Or.inr ⟨items0, List.mem_cons_self _ _⟩)
      · have hp : dget2 (setdefault2 acc (pyStr (pyLen c)) c corpus)
            (pyStr (pyLen cond)) cond = dget2 acc (pyStr (pyLen cond)) cond := by
          rw [dget2_setdefault2]
          by_cases hss : pyStr (pyLen cond) = pyStr (pyLen c)
          · rw [if_pos hss, if_neg hcc, hss]
          · rw [if_neg hss]
        rw [hp] at ihinst
        rw [ihinst]
        constructor
        · rintro (hz | ⟨its, hits⟩)
          · exact Or.inl hz
          · exact Or.inr ⟨its, List.mem_cons_of_mem _ hits⟩
        · rintro (hz | ⟨its, hits⟩)
          · exact Or.inl hz
          · rcases List.mem_cons.mp hits with heq | hmem
            · exact absurd (congrArg Prod.fst heq) hcc
            · exact Or.inr ⟨its, hmem⟩

/-- Tab-separated corpus row behind `linzenItemPS`. -/
def linzenRowPS : String :=
  "s\tthe men under the bridge walk\tDT NNS IN DT NN VBP\tmen\twalk\tNNS\tFALSE\tTRUE\tVBP\t2\t6\t1\tNN\t1\t4\t5\tx\ty"

/-- Two-level output with `"PS"` present as an empty corpus. -/
def linzenOutEmpty : PyDict String (PyDict String (List Example)) :=
  [("2", [("PS", [])])]

/-- C6 counterexample: with a vocabulary that registers no inflection for
`walk`, the `"PS"` condition has one raw item but zero surviving examples,
yet it is present in the output as an empty entry rather than absent. -/
theorem C6_empty_condition_present_counterexample :
    create_corpora ["h", linzenRowPS] ["zzz"] ["w p f"] ["PS"] none id id =
      .ok linzenOutEmpty ∧
    dget2 linzenOutEmpty "2" "PS" = some [] :=
  ⟨rfl, rfl⟩

/-- C6 amended: every condition present in the output sits under the
attractor-count key `str(len(condition))`, and a condition is present in
the output exactly when some raw row classifies to it — a requested
condition with no raw rows is absent, but one whose raw items all fail
inflection lookup stays present with an empty corpus. -/
theorem C6_grouping_and_presence (corpusLines vocabLines wikiLines subtasks : List String)
    (cap : Option Int) (plural_verb translit : String → String)
    (raw : PyDict String (List RawItem))
    (out : PyDict String (PyDict String (List Example)))
    (hraw : create_raw_corpora corpusLines subtasks = .ok raw)
    (hout : create_corpora corpusLines vocabLines wikiLines subtasks cap
      plural_verb translit = .ok out) :
    (∀ k1 k2, dget2 out k1 k2 ≠ none → k1 = pyStr (pyLen k2)) ∧
    (∀ cond, dget2 out (pyStr (pyLen cond)) cond ≠ none ↔ dget raw cond ≠ none) := by
  unfold create_corpora at hout
  rw [hraw] at hout
  cases hvi : create_verb_inflections vocabLines wikiLines plural_verb with
  | error e =>
    rw [hvi] at hout
    cases hout
  | ok vi =>
    rw [hvi] at hout
    constructor
    · exact corporaLoop_nesting translit vi cap raw [] out hout
        (fun k1 k2 hk => absurd rfl hk)
    · intro cond
      rw [corporaLoop_presence translit vi cap raw [] out hout cond,
        dget_ne_none_iff]
      simp [dget2, dget]

/-- Witness for C6 at the concrete `"PS"` build. -/
theorem C6_grouping_and_presence_witness :
    dget2 linzenOutEmpty (pyStr (pyLen "PS")) "PS" ≠ none ↔
    dget [("PS", [linzenItemPS])] "PS" ≠ none :=
  (C6_grouping_and_presence ["h", linzenRowPS] ["zzz"] ["w p f"] ["PS"] none id id
    [("PS", [linzenItemPS])] linzenOutEmpty rfl rfl).2 "PS"

/-!  Claim C10. -/

theorem create_corpus_cap_le (translit : String → String) (items : List RawItem)
    (vi : PyDict String String) (n : Int) (hn : 0 ≤ n) (corpus : List Example)
    (h : create_corpus translit items vi (some n) = .ok corpus) :
    corpus.length ≤ n.toNat := by
  unfold create_corpus at h
  cases hex : exLoop translit vi items with
  | error e =>
    rw [hex] at h
    cases h
  | ok opts =>
    rw [hex] at h
    have hcor : pyTake opts.reduceOption n = corpus := by
      simpa using h
    rw [← hcor, pyTake_ofNonneg _ _ hn]
    exact List.length_take_le _ _

theorem corporaLoop_cap (translit : String → String) (vi : PyDict String String)
    (n : Int) (hn : 0 ≤ n) :
    ∀ (rawlist : PyDict String (List RawItem))
      (acc out : PyDict String (PyDict String (List Example))),
      corporaLoop translit vi (some n) rawlist acc = .ok out →
      (∀ k1 k2 c, dget2 acc k1 k2 = some c → c.length ≤ n.toNat) →
      ∀ k1 k2 c, dget2 out k1 k2 = some c → c.length ≤ n.toNat := by
  intro rawlist
  induction rawlist with
  | nil =>
    intro acc out h hacc
    obtain rfl : acc = out := by
      simpa [corporaLoop] using h
    exact hacc
  | cons p rest ih =>
    intro acc out h hacc
    obtain ⟨cond, items⟩ := p
    simp only [corporaLoop] at h
    cases hc : create_corpus translit items vi (some n) with
    | error e =>
      rw [hc] at h
      cases h
    | ok corpus =>
      rw [hc] at h
      refine ih _ out h ?_
      intro k1 k2 c hk
      rw [dget2_setdefault2] at hk
      by_cases h1 : k1 = pyStr (pyLen cond)
      · rw [if_pos h1] at hk
        by_cases h2 : k2 = cond
        · rw [if_pos h2] at hk
          injection hk with hk
          rw [← hk]
          exact create_corpus_cap_le translit items vi n hn corpus hc
        · rw [if_neg h2] at hk
          exact hacc _ k2 c hk
      · rw [if_neg h1] at hk
        exact hacc k1 k2 c hk

theorem create_corpora_cap (corpusLines vocabLines wikiLines subtasks : List String)
    (n : Int) (hn : 0 ≤ n) (plural_verb translit : String → String)
    (out : PyDict String (PyDict String (List Example)))
    (hout : create_corpora corpusLines vocabLines wikiLines subtasks (some n)
      plural_verb translit = .ok out) :
    ∀ k1 k2 c, dget2 out k1 k2 = some c → c.length ≤ n.toNat := by
  unfold create_corpora at hout
  cases hraw : create_raw_corpora corpusLines subtasks with
  | error e =>
    rw [hraw] at hout
    cases hout
  | ok raw =>
    rw [hraw] at hout
    cases hvi : create_verb_inflections vocabLines wikiLines plural_verb with
    | error e =>
      rw [hvi] at hout
      cases hout
    | ok vi =>
      rw [hvi] at hout
      exact corporaLoop_cap translit vi n hn raw [] out hout
        (fun k1 k2 c hk => by simp [dget2, dget] at hk)

/-- C10: omitting the `items_per_subtask` argument applies the declared
default of 1000, so every output condition still holds at most 1000
examples; an uncapped build needs an explicit `None`. -/
theorem C10_default_cap :
    items_per_subtask_default = some 1000 ∧
    ∀ (corpusLines vocabLines wikiLines : List String)
      (subtasks : Option (List String)) (plural_verb translit : String → String)
      (out : PyDict String (PyDict String (List Example))) (k1 k2 : String)
      (c : List Example),
      initializeLinzenDefaultCap corpusLines vocabLines wikiLines subtasks
        plural_verb translit = .ok out →
      dget2 out k1 k2 = some c → c.length ≤ 1000 := by
  refine ⟨rfl, ?_⟩
  intro corpusLines vocabLines wikiLines subtasks plural_verb translit out k1 k2 c
    hout hdg
  unfold initializeLinzenDefaultCap initializeLinzen items_per_subtask_default at hout
  exact create_corpora_cap corpusLines vocabLines wikiLines _ 1000 (by omega)
    plural_verb translit out hout k1 k2 c hdg

/-- Witness for C10 at the concrete `"PS"` build with the argument
omitted. -/
theorem C10_default_cap_witness :
    initializeLinzenDefaultCap ["h", linzenRowPS] ["zzz"] ["w p f"] (some ["PS"])
      id id = .ok linzenOutEmpty ∧
    ([] : List Example).length ≤ 1000 :=
  ⟨rfl, C10_default_cap.2 ["h", linzenRowPS] ["zzz"] ["w p f"] (some ["PS"]) id id
    linzenOutEmpty "2" "PS" [] rfl rfl⟩
